import Mathlib

/-!
Shallow embedding of `src/ir2hid.c` (SaturnOperator/ir2hid): an
infrared-to-HID translation app. The embedding models the mapping-table
parser (`ir2hid_parse_hex_u32`, `ir2hid_parse_lut_line`,
`ir2hid_load_lut`), the signal matcher (`ir2hid_lookup_hid_code`) and the
consumer-loop handling of one decoded IR-signal event (`ir2hid_app`'s
`EventTypeIRSignal` branch, modelled as `ir2hid_handle_ir_signal`).
Strings are `List Char`; machine integers are `Nat` with explicit
reduction modulo `2 ^ 32` where the C code computes in `uint32_t`.
Side effects of the consumer branch (HID press/release, mutex
acquire/release, display write, view-port update) are recorded as an
ordered trace of `Effect`s.
-/

def u32_mod : Nat := 2 ^ 32

/-- Wraparound subtraction of two values taken as `uint32_t`, mirroring
the C expression `now - app->last_tick`. -/
def u32_sub (a b : Nat) : Nat := (u32_mod + a % u32_mod - b % u32_mod) % u32_mod

/-- Modelled from the spec: `InfraredProtocol` values come from the
external protocol registry collaborator (spec section 6); only the
distinction between the invalid `Unknown` value and a handful of valid
named protocols matters to the core. -/
inductive InfraredProtocol where
  | Unknown
  | NEC
  | NECext
  | NEC42
  | Samsung32
  | RC5
  | RC6
  | SIRC
deriving DecidableEq

/-- Mirror of the C `InfraredMessage` struct (protocol, address, command,
repeat flag); `address` and `command` are `uint32_t` in the source. -/
structure InfraredMessage where
  protocol : InfraredProtocol
  address : Nat
  command : Nat
  is_repeat : Bool
deriving DecidableEq

/-- Mirror of the C `IR2HIDLutEntry` struct: a stored message signature
plus the mapped 8-bit HID code. -/
structure IR2HIDLutEntry where
  ir : InfraredMessage
  hid_code : Nat
deriving DecidableEq

/-- Modelled from the spec: the external protocol-name registry (spec
section 6), a case-sensitive resolution of protocol names; unknown names
resolve to the invalid protocol. -/
def infrared_get_protocol_by_name (s : List Char) : InfraredProtocol :=
  if s = ("NEC").data then InfraredProtocol.NEC
  else if s = ("NECext").data then InfraredProtocol.NECext
  else if s = ("NEC42").data then InfraredProtocol.NEC42
  else if s = ("Samsung32").data then InfraredProtocol.Samsung32
  else if s = ("RC5").data then InfraredProtocol.RC5
  else if s = ("RC6").data then InfraredProtocol.RC6
  else if s = ("SIRC").data then InfraredProtocol.SIRC
  else InfraredProtocol.Unknown

/-- Modelled from the spec: validity test of the external registry; only
the `Unknown` sentinel is invalid. -/
def infrared_is_protocol_valid (p : InfraredProtocol) : Bool :=
  p ≠ InfraredProtocol.Unknown

/-- Modelled from the spec: name of a protocol in the external registry
(the inverse direction of `infrared_get_protocol_by_name`). -/
def infrared_get_protocol_name (p : InfraredProtocol) : List Char :=
  match p with
  | InfraredProtocol.Unknown => ("Unknown").data
  | InfraredProtocol.NEC => ("NEC").data
  | InfraredProtocol.NECext => ("NECext").data
  | InfraredProtocol.NEC42 => ("NEC42").data
  | InfraredProtocol.Samsung32 => ("Samsung32").data
  | InfraredProtocol.RC5 => ("RC5").data
  | InfraredProtocol.RC6 => ("RC6").data
  | InfraredProtocol.SIRC => ("SIRC").data

/-- Mirror of the fields of the C `IR2HIDApp` struct that the core logic
reads or writes (display text fields, signal flag, lookup table, USB-HID
active flag, debounce state). -/
structure AppState where
  text_proto : List Char
  text_addr : List Char
  text_cmd : List Char
  has_signal : Bool
  lut : List IR2HIDLutEntry
  usb_hid_active : Bool
  last_proto : InfraredProtocol
  last_addr : Nat
  last_cmd : Nat
  last_tick : Nat
deriving DecidableEq

/-- App state right after the initialization block of `ir2hid_app`
(lines 331-342 of the source): no signal, empty table, debounce state at
its sentinel values. `usb_ok` is the result of the USB HID configuration
attempt. -/
def ir2hid_init_app (usb_ok : Bool) : AppState :=
  { text_proto := []
    text_addr := []
    text_cmd := []
    has_signal := false
    lut := []
    usb_hid_active := usb_ok
    last_proto := InfraredProtocol.Unknown
    last_addr := 0
    last_cmd := 0
    last_tick := 0 }

/-- Mirror of `ir2hid_strip_hex_prefix`: drop a leading `0x`/`0X`. -/
def ir2hid_strip_hex_prefix : List Char → List Char
  | '0' :: c :: rest =>
    if c = 'x' ∨ c = 'X' then rest else '0' :: c :: rest
  | s => s

/-- Modelled from the spec: the toolbox helper `hex_char_to_hex_nibble`
(an external collaborator): classify a hexadecimal digit character and
return its value. The code points are those of `0`-`9` (48-57),
`A`-`F` (65-70) and `a`-`f` (97-102). -/
def hex_char_to_hex_nibble (c : Char) : Option Nat :=
  if 48 ≤ c.toNat ∧ c.toNat ≤ 57 then some (c.toNat - 48)
  else if 65 ≤ c.toNat ∧ c.toNat ≤ 70 then some (c.toNat - 55)
  else if 97 ≤ c.toNat ∧ c.toNat ≤ 102 then some (c.toNat - 87)
  else none

/-- Loop of `ir2hid_parse_hex_u32`: left-shift-and-accumulate on a
`uint32_t` accumulator (hence the reduction modulo `2 ^ 32` at each
step, mirroring `value = (value << 4) | nibble`). -/
def ir2hid_parse_hex_u32_loop : List Char → Nat → Option Nat
  | [], value => some value
  | c :: s, value =>
    match hex_char_to_hex_nibble c with
    | none => none
    | some nibble => ir2hid_parse_hex_u32_loop s (((value <<< 4) ||| nibble) % u32_mod)

/-- Mirror of `ir2hid_parse_hex_u32`: parse a non-empty all-hex string
into a `uint32_t`; the empty string is rejected (the `any` flag). -/
def ir2hid_parse_hex_u32 (s : List Char) : Option Nat :=
  match s with
  | [] => none
  | _ => ir2hid_parse_hex_u32_loop s 0

/-- Split a character list at every separator accepted by `p`; the
separators themselves are dropped (they are overwritten with NUL in the
C code). Always returns at least one (possibly empty) chunk. -/
def ir2hid_split_on (p : Char → Bool) : List Char → List (List Char)
  | [] => [[]]
  | c :: rest =>
    match ir2hid_split_on p rest with
    | [] => [[]]
    | cur :: more => if p c then [] :: cur :: more else (c :: cur) :: more

/-- Column split of `ir2hid_parse_lut_line`: the scan stops after the
4th comma, so the line yields at most 4 columns and anything beyond the
4th comma is ignored. -/
def ir2hid_split_cols (line : List Char) : List (List Char) :=
  (ir2hid_split_on (fun c => c == ',') line).take 4

/-- Mirror of `ir2hid_parse_lut_line`: reject when fewer than 4 columns
are present (`col_index < MaxColumns - 1`), when the protocol name does
not resolve, when a hex column fails to parse, or when the HID value
exceeds `0xFF`; otherwise build the entry (with `repeat` cleared). -/
def ir2hid_parse_lut_line (line : List Char) : Option IR2HIDLutEntry :=
  match ir2hid_split_cols line with
  | proto_str :: addr_str :: cmd_str :: hid_str :: _ =>
    if infrared_is_protocol_valid (infrared_get_protocol_by_name proto_str) then
      match ir2hid_parse_hex_u32 ( ir2hid_strip_hex_prefix addr_str),
            ir2hid_parse_hex_u32 ( ir2hid_strip_hex_prefix cmd_str),
            ir2hid_parse_hex_u32 ( ir2hid_strip_hex_prefix hid_str) with
      | some addr_val, some cmd_val, some hid_val =>
        if hid_val > 0xFF then none
        else some { ir := { protocol := infrared_get_protocol_by_name proto_str
                            address := addr_val
                            command := cmd_val
                            is_repeat := false }
                    hid_code := hid_val }
      | _, _, _ => none
    else none
  | _ => none

/-- Line-terminator test of the two scan passes in `ir2hid_load_lut`:
`'\r'`, `'\n'` and NUL all terminate a logical line. -/
def ir2hid_is_line_end (c : Char) : Bool :=
  c == '\r' || c == '\n' || c == '\x00'

/-- The non-blank logical lines of the file buffer, in order (a line is
blank when its first character is the terminating NUL, i.e. when the
chunk is empty). -/
def ir2hid_split_lines (buf : List Char) : List (List Char) :=
  (ir2hid_split_on ir2hid_is_line_end buf).filter (fun l => !l.isEmpty)

/-- The data lines of the buffer: every non-blank line except the first
one, which is the header (`line_no > 0` in both scan passes). -/
def ir2hid_data_lines (buf : List Char) : List (List Char) :=
  (ir2hid_split_lines buf).drop 1

/-- A 31-character truncation, mirroring both `snprintf` into the 32-byte
temporary buffers and `strlcpy` into the 32-byte display fields (one byte
is reserved for the NUL terminator). -/
def ir2hid_trunc32 (s : List Char) : List Char := s.take 31

/-- Mirror of `ir2hid_load_lut`, with the storage collaborator abstracted
as the optional file content: `none` when `storage_file_open` fails,
`some buf` for a successfully read file. On open failure the display
fields get the diagnostic text; an empty or oversized (more than 8192
bytes) file and a file with no data lines leave the state untouched;
otherwise the table becomes the in-order parse of the data lines. -/
def ir2hid_load_lut (app : AppState) (file : Option (List Char)) : AppState :=
  match file with
  | none =>
    { app with text_proto := ir2hid_trunc32 (("lut.csv not found").data)
               text_addr := []
               text_cmd := []
               has_signal := true }
  | some buf =>
    if buf.length = 0 ∨ buf.length > 8192 then app
    else
      let dl := ir2hid_data_lines buf
      if dl.isEmpty then app
      else { app with lut := dl.filterMap ir2hid_parse_lut_line }

/-- Mirror of `ir2hid_lookup_hid_code`: linear scan, first entry whose
(protocol, address, command) triple equals the query wins. The C null /
zero-count early exit coincides with the empty-list case. -/
def ir2hid_lookup_hid_code : List IR2HIDLutEntry → InfraredMessage → Option Nat
  | [], _ => none
  | e :: rest, ir =>
    if e.ir.protocol = ir.protocol ∧ e.ir.address = ir.address ∧ e.ir.command = ir.command then
      some e.hid_code
    else ir2hid_lookup_hid_code rest ir

/-- Modelled from the spec: kernel tick conversion of the platform
(`furi_ms_to_ticks`); the reference tick rate is 1 kHz, so one tick is
one millisecond. -/
def furi_ms_to_ticks (ms : Nat) : Nat := ms

/-- The debounce cooldown of the consumer loop: `furi_ms_to_ticks(5)`. -/
def ir2hid_debounce_ticks : Nat := furi_ms_to_ticks 5

/-- Uppercase hexadecimal digit for a nibble value, as produced by the
`%X` family of format conversions. -/
def ir2hid_hex_digit_upper (n : Nat) : Char :=
  if n < 10 then Char.ofNat (48 + n) else Char.ofNat (55 + n)

/-- Hexadecimal digits (most significant first) of `n`, with enough fuel
for a `uint32_t` (at most 8 nibbles). -/
def ir2hid_hex_digits_fuel : Nat → Nat → List Char
  | 0, _ => []
  | fuel + 1, n =>
    if n = 0 then []
    else ir2hid_hex_digits_fuel fuel (n / 16) ++ [ir2hid_hex_digit_upper (n % 16)]

/-- Rendering of the `%0*lX` conversions used by the consumer loop:
uppercase hexadecimal, zero-padded on the left to at least `width`
digits. -/
def ir2hid_format_hex (width : Nat) (n : Nat) : List Char :=
  let ds := if n = 0 then [('0' : Char)] else ir2hid_hex_digits_fuel 8 n
  List.replicate (width - ds.length) ('0' : Char) ++ ds

/-- Trace items for the side effects performed by the IR-signal branch of
the consumer loop, in program order. -/
inductive Effect where
  | hidPress (code : Nat)
  | hidRelease (code : Nat)
  | mutexAcquire
  | displayWrite (proto addr cmd : List Char)
  | mutexRelease
  | viewPortUpdate
deriving DecidableEq

/-- Lines 439-450 of the source: acquire the mutex, `strlcpy` the three
formatted strings into the display fields, set `has_signal`, release the
mutex, and request a redraw; `fx` is the trace accumulated before this
point (HID press/release). -/
def ir2hid_commit_display (a : AppState) (tp ta tc : List Char) (fx : List Effect) :
    AppState × List Effect :=
  ({ a with text_proto := ir2hid_trunc32 tp
            text_addr := ir2hid_trunc32 ta
            text_cmd := ir2hid_trunc32 tc
            has_signal := true },
   fx ++ [Effect.mutexAcquire,
          Effect.displayWrite (ir2hid_trunc32 tp) (ir2hid_trunc32 ta) (ir2hid_trunc32 tc),
          Effect.mutexRelease,
          Effect.viewPortUpdate])

/-- Lines 402-450 of the source: protocol-name resolution, string
formatting, table lookup, conditional HID press/release (only when the
USB HID interface is active and a host is connected), and the display
commit. `a1` is the state after the debounce bookkeeping. -/
def ir2hid_process_signal (a1 : AppState) (msg : InfraredMessage) (hid_connected : Bool) :
    AppState × List Effect :=
  let name := if infrared_is_protocol_valid msg.protocol then
                infrared_get_protocol_name msg.protocol
              else ("Unknown").data
  let temp_proto := ir2hid_trunc32 (("Proto: ").data ++ name)
  let temp_addr := ir2hid_trunc32 (("Addr: 0x").data ++ ir2hid_format_hex 4 msg.address)
  match ir2hid_lookup_hid_code a1.lut msg with
  | some code =>
    let fx := if a1.usb_hid_active && hid_connected then
                [Effect.hidPress code, Effect.hidRelease code]
              else []
    ir2hid_commit_display a1 temp_proto temp_addr
      (ir2hid_trunc32 (("Cmd:0x").data ++ ir2hid_format_hex 4 msg.command ++
        (" HID:0x").data ++ ir2hid_format_hex 2 code)) fx
  | none =>
    ir2hid_commit_display a1 temp_proto temp_addr
      (ir2hid_trunc32 (("Cmd:0x").data ++ ir2hid_format_hex 4 msg.command ++
        (" (no map)").data)) []

/-- Lines 380-451 of the source, the `EventTypeIRSignal` branch of the
consumer loop: repeat frames are dropped outright; a signal equal to the
stored last-seen signature arriving within the cooldown is dropped;
otherwise the debounce state is updated and the signal is processed.
`now` is `furi_get_tick()` and `hid_connected` is the value of
`furi_hal_hid_is_connected()`. -/
def ir2hid_handle_ir_signal (app : AppState) (msg : InfraredMessage) (now : Nat)
    (hid_connected : Bool) : AppState × List Effect :=
  if msg.is_repeat then (app, [])
  else if msg.protocol = app.last_proto ∧ msg.address = app.last_addr ∧
          msg.command = app.last_cmd ∧ u32_sub now app.last_tick < ir2hid_debounce_ticks then
    (app, [])
  else
    ir2hid_process_signal
      { app with last_proto := msg.protocol
                 last_addr := msg.address
                 last_cmd := msg.command
                 last_tick := now }
      msg hid_connected

/-- Title line drawn by `render_callback`: the `[Connected]` tag appears
only when the USB HID interface is active and a host is connected. -/
def ir2hid_render_header (usb_hid_active hid_connected : Bool) : List Char :=
  if usb_hid_active && hid_connected then ("IR > HID [Connected]").data
  else ("IR > HID").data

/-- Spec-side unbounded value of a hex string (no 32-bit truncation),
used to state the wraparound semantics of `ir2hid_parse_hex_u32`. -/
def ir2hid_hex_value_unbounded (s : List Char) : Nat :=
  s.foldl (fun a c => 16 * a + ((hex_char_to_hex_nibble c).getD 0)) 0

/-- Spec-side rejection condition of claim C5 for a single data line:
fewer than 4 comma-delimited columns, an unresolvable protocol name, or
an empty / non-hex hex column. -/
def ir2hid_line_rejected (line : List Char) : Bool :=
  match ir2hid_split_cols line with
  | proto_str :: addr_str :: cmd_str :: hid_str :: _ =>
    !(infrared_is_protocol_valid (infrared_get_protocol_by_name proto_str)) ||
    (ir2hid_parse_hex_u32 ( ir2hid_strip_hex_prefix addr_str)).isNone ||
    (ir2hid_parse_hex_u32 ( ir2hid_strip_hex_prefix cmd_str)).isNone ||
    (ir2hid_parse_hex_u32 ( ir2hid_strip_hex_prefix hid_str)).isNone
  | _ => true

def ir2hid_c1_row : List Char := ("NEC,0x04,0x0A,0x01").data

def ir2hid_c1_table : List Char :=
  ("ir_protocol,ir_address,ir_command,hid_command\nNEC,0x04,0x0A,0x01").data

def ir2hid_c2_e1 : IR2HIDLutEntry :=
  { ir := { protocol := InfraredProtocol.NEC, address := 1, command := 2,
            is_repeat := false }, hid_code := 5 }

def ir2hid_c2_e2 : IR2HIDLutEntry :=
  { ir := { protocol := InfraredProtocol.NEC, address := 1, command := 2,
            is_repeat := false }, hid_code := 9 }

def ir2hid_c3_app : AppState :=
  { text_proto := []
    text_addr := []
    text_cmd := []
    has_signal := false
    lut := []
    usb_hid_active := true
    last_proto := InfraredProtocol.NEC
    last_addr := 1
    last_cmd := 2
    last_tick := 100 }

def ir2hid_c3_msg : InfraredMessage :=
  { protocol := InfraredProtocol.NEC, address := 1, command := 2, is_repeat := false }

def ir2hid_c9_app : AppState :=
  { text_proto := []
    text_addr := []
    text_cmd := []
    has_signal := false
    lut := [{ ir := { protocol := InfraredProtocol.NEC, address := 1, command := 2,
                      is_repeat := false }, hid_code := 7 }]
    usb_hid_active := true
    last_proto := InfraredProtocol.Unknown
    last_addr := 0
    last_cmd := 0
    last_tick := 0 }

def ir2hid_c9_msg : InfraredMessage :=
  { protocol := InfraredProtocol.NEC, address := 1, command := 2, is_repeat := false }

def ir2hid_c10_msg : InfraredMessage :=
  { protocol := InfraredProtocol.NEC, address := 171, command := 205, is_repeat := false }

def ir2hid_c5_buf : List Char :=
  ("ir_protocol,ir_address,ir_command,hid_command\nNEC,0x01,0x02,0x03\nBAD\nRC5,0x10,0x20,0x30").data

def ir2hid_c5_good1 : List Char := ("NEC,0x01,0x02,0x03").data

def ir2hid_c5_good2 : List Char := ("RC5,0x10,0x20,0x30").data

/-- Claim C1, counterexample: when the file content is the single row
`NEC,0x04,0x0A,0x01` and nothing else, that row is the first non-blank
line, so it is discarded as the header; the table stays empty and the
lookup of (NEC, 0x04, 0x0A) returns no match instead of HID code 0x01. -/
theorem ir2hid_single_row_is_header_no_match :
    (ir2hid_load_lut (ir2hid_init_app true) (some ir2hid_c1_row)).lut = [] ∧
    ir2hid_lookup_hid_code (ir2hid_load_lut (ir2hid_init_app true) (some ir2hid_c1_row)).lut
      { protocol := InfraredProtocol.NEC, address := 4, command := 10, is_repeat := false } =
      none := by decide

/-- Claim C1 (amended): loading a table whose content is a header line
followed by the single data row `NEC,0x04,0x0A,0x01` and then looking up
signature (NEC, 0x04, 0x0A) returns HID code 0x01, while looking up
(NEC, 0x04, 0x0B) returns no match. -/
theorem ir2hid_roundtrip_header_plus_row :
    ir2hid_lookup_hid_code (ir2hid_load_lut (ir2hid_init_app true) (some ir2hid_c1_table)).lut
      { protocol := InfraredProtocol.NEC, address := 4, command := 10, is_repeat := false } =
      some 1 ∧
    ir2hid_lookup_hid_code (ir2hid_load_lut (ir2hid_init_app true) (some ir2hid_c1_table)).lut
      { protocol := InfraredProtocol.NEC, address := 4, command := 11, is_repeat := false } =
      none := by decide

/-- Claim C4: a decoded signal whose repeat flag is set is rejected
unconditionally by the consumer loop: whatever the stored debounce state,
the current time and the connection status, the app state is unchanged
and no effect (HID action, display write, redraw) is traced. -/
theorem ir2hid_repeat_rejected (app : AppState) (msg : InfraredMessage) (now : Nat)
    (conn : Bool) (h : msg.is_repeat = true) :
    ir2hid_handle_ir_signal app msg now conn = (app, []) := by
  simp [ir2hid_handle_ir_signal, h]

/-- Witness for `ir2hid_repeat_rejected` at a concrete repeat frame. -/
theorem ir2hid_repeat_rejected_witness :
    ir2hid_handle_ir_signal (ir2hid_init_app true)
      { protocol := InfraredProtocol.NEC, address := 4, command := 10, is_repeat := true }
      100 true = (ir2hid_init_app true, []) :=
  ir2hid_repeat_rejected (ir2hid_init_app true)
    { protocol := InfraredProtocol.NEC, address := 4, command := 10, is_repeat := true }
    100 true rfl

/-- Claim C7: when the table file cannot be opened, the load step leaves
zero entries, writes the `lut.csv not found` diagnostic into the display
text, sets `has_signal`, returns normally, and every subsequent lookup on
the (empty) table returns no match. -/
theorem ir2hid_missing_file_diagnostic (usb : Bool) :
    (ir2hid_load_lut (ir2hid_init_app usb) none).text_proto = ("lut.csv not found").data ∧
    (ir2hid_load_lut (ir2hid_init_app usb) none).text_addr = [] ∧
    (ir2hid_load_lut (ir2hid_init_app usb) none).text_cmd = [] ∧
    (ir2hid_load_lut (ir2hid_init_app usb) none).has_signal = true ∧
    (ir2hid_load_lut (ir2hid_init_app usb) none).lut = [] ∧
    ∀ ir : InfraredMessage,
      ir2hid_lookup_hid_code (ir2hid_load_lut (ir2hid_init_app usb) none).lut ir = none := by
  refine ⟨rfl, rfl, rfl, rfl, rfl, ?_⟩
  intro ir
  rfl

/-- Claim C8: a table file larger than 8192 bytes makes `ir2hid_load_lut`
abort early: the whole app state, and in particular the (empty) lookup
table, is left exactly as it was. -/
theorem ir2hid_oversize_file_empty_table (app : AppState) (buf : List Char)
    (h : 8192 < buf.length) :
    ir2hid_load_lut app (some buf) = app := by
  simp only [ir2hid_load_lut]
  rw [if_pos (Or.inr h)]

/-- Witness for `ir2hid_oversize_file_empty_table` on a concrete
8193-byte file. -/
theorem ir2hid_oversize_file_empty_table_witness :
    ir2hid_load_lut (ir2hid_init_app true) (some (List.replicate 8193 ('a' : Char))) =
      ir2hid_init_app true :=
  ir2hid_oversize_file_empty_table (ir2hid_init_app true) (List.replicate 8193 ('a' : Char))
    (by rw [List.length_replicate]; omega)

/-- Claim C2: in a table holding two entries with the same
(protocol, address, command) signature but different HID codes, the
lookup returns the HID code of the earliest-loaded matching entry and
never the later duplicate's code. `pre` is the part of the table before
the first matching entry. -/
theorem ir2hid_lookup_first_match_wins (pre mid post : List IR2HIDLutEntry)
    (e1 e2 : IR2HIDLutEntry) (ir : InfraredMessage)
    (h1 : e1.ir.protocol = ir.protocol ∧ e1.ir.address = ir.address ∧
          e1.ir.command = ir.command)
    (h2 : e2.ir.protocol = ir.protocol ∧ e2.ir.address = ir.address ∧
          e2.ir.command = ir.command)
    (hpre : ∀ x ∈ pre, ¬(x.ir.protocol = ir.protocol ∧ x.ir.address = ir.address ∧
                         x.ir.command = ir.command))
    (hneq : e1.hid_code ≠ e2.hid_code) :
    ir2hid_lookup_hid_code (pre ++ e1 :: mid ++ e2 :: post) ir = some e1.hid_code ∧
    ir2hid_lookup_hid_code (pre ++ e1 :: mid ++ e2 :: post) ir ≠ some e2.hid_code := by
  have hfirst : ir2hid_lookup_hid_code (pre ++ e1 :: mid ++ e2 :: post) ir =
      some e1.hid_code := by
    induction pre with
    | nil => simp [ir2hid_lookup_hid_code, h1]
    | cons x xs ih =>
      have hx := hpre x (List.mem_cons_self x xs)
      have hxs : ∀ y ∈ xs, ¬(y.ir.protocol = ir.protocol ∧ y.ir.address = ir.address ∧
          y.ir.command = ir.command) := fun y hy => hpre y (List.mem_cons_of_mem x hy)
      simpa [ir2hid_lookup_hid_code, hx] using ih hxs
  refine ⟨hfirst, ?_⟩
  rw [hfirst]
  intro hcontra
  exact hneq (Option.some_injective _ hcontra)

/-- Witness for `ir2hid_lookup_first_match_wins` on a concrete two-entry
table with duplicate signatures. -/
theorem ir2hid_lookup_first_match_wins_witness :
    ir2hid_lookup_hid_code [ir2hid_c2_e1, ir2hid_c2_e2]
      { protocol := InfraredProtocol.NEC, address := 1, command := 2,
        is_repeat := false } = some 5 ∧
    ir2hid_lookup_hid_code [ir2hid_c2_e1, ir2hid_c2_e2]
      { protocol := InfraredProtocol.NEC, address := 1, command := 2,
        is_repeat := false } ≠ some 9 :=
  ir2hid_lookup_first_match_wins [] [] [] ir2hid_c2_e1 ir2hid_c2_e2
    { protocol := InfraredProtocol.NEC, address := 1, command := 2, is_repeat := false }
    (by decide) (by decide) (by simp) (by decide)

/-- Helper: processing a non-filtered signal never touches the debounce
bookkeeping, table or USB flag of the state it is given, sets the signal
flag, and always produces a non-empty effect trace. -/
theorem ir2hid_process_signal_state (a1 : AppState) (msg : InfraredMessage) (conn : Bool) :
    (ir2hid_process_signal a1 msg conn).1.last_proto = a1.last_proto ∧
    (ir2hid_process_signal a1 msg conn).1.last_addr = a1.last_addr ∧
    (ir2hid_process_signal a1 msg conn).1.last_cmd = a1.last_cmd ∧
    (ir2hid_process_signal a1 msg conn).1.last_tick = a1.last_tick ∧
    (ir2hid_process_signal a1 msg conn).1.lut = a1.lut ∧
    (ir2hid_process_signal a1 msg conn).1.has_signal = true ∧
    (ir2hid_process_signal a1 msg conn).2 ≠ [] := by
  unfold ir2hid_process_signal
  cases hm : ir2hid_lookup_hid_code a1.lut msg <;>
    simp [ir2hid_commit_display]

/-- Claim C3: for a non-repeat signal whose signature equals the stored
last-seen signature, the consumer loop rejects it without any state
change or effect when the elapsed tick count since the stored timestamp
is below the cooldown, and accepts it otherwise; on acceptance the
stored signature and timestamp become the current signal and time, and
the signal is processed (non-empty effect trace). -/
theorem ir2hid_debounce_window (app : AppState) (msg : InfraredMessage) (now : Nat)
    (conn : Bool) (hrep : msg.is_repeat = false)
    (hp : msg.protocol = app.last_proto) (ha : msg.address = app.last_addr)
    (hc : msg.command = app.last_cmd) :
    (u32_sub now app.last_tick < ir2hid_debounce_ticks →
       ir2hid_handle_ir_signal app msg now conn = (app, [])) ∧
    (ir2hid_debounce_ticks ≤ u32_sub now app.last_tick →
       (ir2hid_handle_ir_signal app msg now conn).1.last_proto = msg.protocol ∧
       (ir2hid_handle_ir_signal app msg now conn).1.last_addr = msg.address ∧
       (ir2hid_handle_ir_signal app msg now conn).1.last_cmd = msg.command ∧
       (ir2hid_handle_ir_signal app msg now conn).1.last_tick = now ∧
       (ir2hid_handle_ir_signal app msg now conn).2 ≠ []) := by
  constructor
  · intro hlt
    simp [ir2hid_handle_ir_signal, hrep, hp, ha, hc, hlt]
  · intro hge
    have hcond : ¬(msg.protocol = app.last_proto ∧ msg.address = app.last_addr ∧
        msg.command = app.last_cmd ∧ u32_sub now app.last_tick < ir2hid_debounce_ticks) := by
      intro hand
      exact absurd hand.2.2.2 (Nat.not_lt.mpr hge)
    have h1 : ir2hid_handle_ir_signal app msg now conn =
        ir2hid_process_signal
          { app with last_proto := msg.protocol, last_addr := msg.address,
                     last_cmd := msg.command, last_tick := now } msg conn := by
      simp [ir2hid_handle_ir_signal, hrep, hcond]
    obtain ⟨p1, p2, p3, p4, _, _, p7⟩ :=
      ir2hid_process_signal_state
        { app with last_proto := msg.protocol, last_addr := msg.address,
                   last_cmd := msg.command, last_tick := now } msg conn
    rw [h1]
    exact ⟨p1, p2, p3, p4, p7⟩

/-- Witness for `ir2hid_debounce_window`: with the last acceptance at
tick 100, the same signature at tick 102 is rejected and at tick 105 is
accepted with the stored timestamp updated. -/
theorem ir2hid_debounce_window_witness :
    ir2hid_handle_ir_signal ir2hid_c3_app ir2hid_c3_msg 102 true = (ir2hid_c3_app, []) ∧
    (ir2hid_handle_ir_signal ir2hid_c3_app ir2hid_c3_msg 105 true).1.last_tick = 105 :=
  ⟨(ir2hid_debounce_window ir2hid_c3_app ir2hid_c3_msg 102 true rfl rfl rfl rfl).1
     (by decide),
   ((ir2hid_debounce_window ir2hid_c3_app ir2hid_c3_msg 105 true rfl rfl rfl rfl).2
     (by decide)).2.2.2.1⟩

/-- Claim C9, counterexample: processing a matched signal with no host
connected yields exactly the same app state — and hence the same
DisplayState fields — as processing it with a host connected, and the
command field reads `Cmd:0x0002 HID:0x07` with no mention of a missing
host: the not-connected condition is not recorded in the display state. -/
theorem ir2hid_display_independent_of_connection :
    (ir2hid_handle_ir_signal ir2hid_c9_app ir2hid_c9_msg 100 false).1 =
      (ir2hid_handle_ir_signal ir2hid_c9_app ir2hid_c9_msg 100 true).1 ∧
    (ir2hid_handle_ir_signal ir2hid_c9_app ir2hid_c9_msg 100 false).1.text_cmd =
      ("Cmd:0x0002 HID:0x07").data := by decide

/-- Claim C9 (amended): when the USB HID interface is inactive or no
host is connected, a matched signal is processed without any HID
press/release effect (the trace holds only the display commit), the
match is still recorded in the display text (command field formatted
with the HID code, signal flag set), and the rendered header omits the
`[Connected]` tag; nothing about the missing host is written into the
display state. -/
theorem ir2hid_disconnected_dispatch_noop (app : AppState) (msg : InfraredMessage)
    (now : Nat) (conn : Bool) (code : Nat) (hrep : msg.is_repeat = false)
    (hdeb : ¬(msg.protocol = app.last_proto ∧ msg.address = app.last_addr ∧
              msg.command = app.last_cmd ∧ u32_sub now app.last_tick < ir2hid_debounce_ticks))
    (hlk : ir2hid_lookup_hid_code app.lut msg = some code)
    (hconn : app.usb_hid_active = false ∨ conn = false) :
    (ir2hid_handle_ir_signal app msg now conn).2 =
      [Effect.mutexAcquire,
       Effect.displayWrite (ir2hid_handle_ir_signal app msg now conn).1.text_proto
         (ir2hid_handle_ir_signal app msg now conn).1.text_addr
         (ir2hid_handle_ir_signal app msg now conn).1.text_cmd,
       Effect.mutexRelease, Effect.viewPortUpdate] ∧
    (ir2hid_handle_ir_signal app msg now conn).1.text_cmd =
      ir2hid_trunc32 (("Cmd:0x").data ++ ir2hid_format_hex 4 msg.command ++
        (" HID:0x").data ++ ir2hid_format_hex 2 code) ∧
    (ir2hid_handle_ir_signal app msg now conn).1.has_signal = true ∧
    ir2hid_render_header app.usb_hid_active conn = ("IR > HID").data := by
  have hfx : (app.usb_hid_active && conn) = false := by
    rcases hconn with h | h <;> simp [h]
  have hhdr : ir2hid_render_header app.usb_hid_active conn = ("IR > HID").data := by
    simp [ir2hid_render_header, hfx]
  have h1 : ir2hid_handle_ir_signal app msg now conn =
      ir2hid_process_signal
        { app with last_proto := msg.protocol, last_addr := msg.address,
                   last_cmd := msg.command, last_tick := now } msg conn := by
    simp [ir2hid_handle_ir_signal, hrep, hdeb]
  have hlk2 : ir2hid_lookup_hid_code
      ({ app with last_proto := msg.protocol, last_addr := msg.address,
                  last_cmd := msg.command, last_tick := now } : AppState).lut msg =
      some code := hlk
  rw [h1]
  unfold ir2hid_process_signal
  rw [hlk2]
  simp [ir2hid_commit_display, hfx, ir2hid_trunc32, List.take_take, hhdr]

/-- Witness for `ir2hid_disconnected_dispatch_noop`: concrete matched
signal processed with no host connected. -/
theorem ir2hid_disconnected_dispatch_noop_witness :
    (ir2hid_handle_ir_signal ir2hid_c9_app ir2hid_c9_msg 100 false).1.text_cmd =
      ir2hid_trunc32 (("Cmd:0x").data ++ ir2hid_format_hex 4 ir2hid_c9_msg.command ++
        (" HID:0x").data ++ ir2hid_format_hex 2 7) ∧
    ir2hid_render_header ir2hid_c9_app.usb_hid_active false = ("IR > HID").data :=
  ⟨(ir2hid_disconnected_dispatch_noop ir2hid_c9_app ir2hid_c9_msg 100 false 7 rfl
      (by decide) (by decide) (Or.inr rfl)).2.1,
   (ir2hid_disconnected_dispatch_noop ir2hid_c9_app ir2hid_c9_msg 100 false 7 rfl
      (by decide) (by decide) (Or.inr rfl)).2.2.2⟩

/-- Helper: the display outcome of processing a non-filtered signal —
the three text fields are set to the formatted protocol/address/command
strings, the signal flag is raised, and the trace ends with the guarded
display commit (mutex acquire, display write of exactly the new field
values, mutex release, redraw request); when the lookup misses, the
command field carries the `(no map)` annotation. -/
theorem ir2hid_process_signal_display (a1 : AppState) (msg : InfraredMessage) (conn : Bool) :
    (ir2hid_process_signal a1 msg conn).1.text_proto =
      ir2hid_trunc32 (("Proto: ").data ++
        (if infrared_is_protocol_valid msg.protocol then
           infrared_get_protocol_name msg.protocol
         else ("Unknown").data)) ∧
    (ir2hid_process_signal a1 msg conn).1.text_addr =
      ir2hid_trunc32 (("Addr: 0x").data ++ ir2hid_format_hex 4 msg.address) ∧
    (ir2hid_process_signal a1 msg conn).1.has_signal = true ∧
    (∃ fx, (ir2hid_process_signal a1 msg conn).2 =
      fx ++ [Effect.mutexAcquire,
             Effect.displayWrite (ir2hid_process_signal a1 msg conn).1.text_proto
               (ir2hid_process_signal a1 msg conn).1.text_addr
               (ir2hid_process_signal a1 msg conn).1.text_cmd,
             Effect.mutexRelease, Effect.viewPortUpdate]) ∧
    (ir2hid_lookup_hid_code a1.lut msg = none →
      (ir2hid_process_signal a1 msg conn).1.text_cmd =
        ir2hid_trunc32 (("Cmd:0x").data ++ ir2hid_format_hex 4 msg.command ++
          (" (no map)").data)) := by
  unfold ir2hid_process_signal
  cases hm : ir2hid_lookup_hid_code a1.lut msg with
  | none =>
    refine ⟨by simp [ir2hid_commit_display, ir2hid_trunc32, List.take_take],
            by simp [ir2hid_commit_display, ir2hid_trunc32, List.take_take],
            rfl, ⟨[], rfl⟩,
            fun _ => by simp [ir2hid_commit_display, ir2hid_trunc32, List.take_take]⟩
  | some code =>
    refine ⟨by simp [ir2hid_commit_display, ir2hid_trunc32, List.take_take],
            by simp [ir2hid_commit_display, ir2hid_trunc32, List.take_take],
            rfl, ⟨_, rfl⟩, fun h0 => ?_⟩
    simp at h0

/-- Claim C10: a signal that passes both the repeat check and the
debounce check always reaches the display update: the protocol and
address fields get the formatted strings, the signal flag is raised, and
the effect trace ends with mutex acquire, a display write of exactly the
new field values, mutex release and a redraw request — whether or not
the table lookup succeeds; when the lookup misses, the command field is
formatted with the `(no map)` annotation instead of a HID code. -/
theorem ir2hid_display_update_on_accept (app : AppState) (msg : InfraredMessage)
    (now : Nat) (conn : Bool) (hrep : msg.is_repeat = false)
    (hdeb : ¬(msg.protocol = app.last_proto ∧ msg.address = app.last_addr ∧
              msg.command = app.last_cmd ∧
              u32_sub now app.last_tick < ir2hid_debounce_ticks)) :
    (ir2hid_handle_ir_signal app msg now conn).1.text_proto =
      ir2hid_trunc32 (("Proto: ").data ++
        (if infrared_is_protocol_valid msg.protocol then
           infrared_get_protocol_name msg.protocol
         else ("Unknown").data)) ∧
    (ir2hid_handle_ir_signal app msg now conn).1.text_addr =
      ir2hid_trunc32 (("Addr: 0x").data ++ ir2hid_format_hex 4 msg.address) ∧
    (ir2hid_handle_ir_signal app msg now conn).1.has_signal = true ∧
    (∃ fx, (ir2hid_handle_ir_signal app msg now conn).2 =
      fx ++ [Effect.mutexAcquire,
             Effect.displayWrite (ir2hid_handle_ir_signal app msg now conn).1.text_proto
               (ir2hid_handle_ir_signal app msg now conn).1.text_addr
               (ir2hid_handle_ir_signal app msg now conn).1.text_cmd,
             Effect.mutexRelease, Effect.viewPortUpdate]) ∧
    (ir2hid_lookup_hid_code app.lut msg = none →
      (ir2hid_handle_ir_signal app msg now conn).1.text_cmd =
        ir2hid_trunc32 (("Cmd:0x").data ++ ir2hid_format_hex 4 msg.command ++
          (" (no map)").data)) := by
  have h1 : ir2hid_handle_ir_signal app msg now conn =
      ir2hid_process_signal
        { app with last_proto := msg.protocol, last_addr := msg.address,
                   last_cmd := msg.command, last_tick := now } msg conn := by
    simp [ir2hid_handle_ir_signal, hrep, hdeb]
  have h2 := ir2hid_process_signal_display
    { app with last_proto := msg.protocol, last_addr := msg.address,
               last_cmd := msg.command, last_tick := now } msg conn
  rw [h1]
  exact h2

/-- Witness for `ir2hid_display_update_on_accept`: on an empty table the
lookup misses and the command field of the display carries the
`(no map)` annotation while the signal flag is raised. -/
theorem ir2hid_display_update_on_accept_witness :
    (ir2hid_handle_ir_signal (ir2hid_init_app true) ir2hid_c10_msg 50 false).1.has_signal =
      true ∧
    (ir2hid_handle_ir_signal (ir2hid_init_app true) ir2hid_c10_msg 50 false).1.text_cmd =
      ir2hid_trunc32 (("Cmd:0x").data ++ ir2hid_format_hex 4 ir2hid_c10_msg.command ++
        (" (no map)").data) :=
  ⟨(ir2hid_display_update_on_accept (ir2hid_init_app true) ir2hid_c10_msg 50 false rfl
      (by decide)).2.2.1,
   (ir2hid_display_update_on_accept (ir2hid_init_app true) ir2hid_c10_msg 50 false rfl
      (by decide)).2.2.2.2 rfl⟩

/-- Helper: a recognized hex digit has value below 16. -/
theorem ir2hid_nibble_lt (c : Char) (d : Nat)
    (h : hex_char_to_hex_nibble c = some d) : d < 16 := by
  unfold hex_char_to_hex_nibble at h
  split at h
  · injection h with h1; omega
  · split at h
    · injection h with h1; omega
    · split at h
      · injection h with h1; omega
      · exact Option.noConfusion h

/-- Helper: the C step `(value << 4) | nibble` is plain
shift-and-accumulate arithmetic when the nibble is below 16. -/
theorem ir2hid_lor_step (v d : Nat) (hd : d < 16) : ((v <<< 4) ||| d) = 16 * v + d := by
  rw [Nat.shiftLeft_eq, Nat.mul_comm]
  rw [← Nat.mul_add_lt_is_or (show d < 2 ^ 4 by omega) v]

/-- Helper: the unbounded hex accumulation is congruent modulo `2 ^ 32`
in its accumulator. -/
theorem ir2hid_hex_foldl_mod (s : List Char) : ∀ a b : Nat, a % u32_mod = b % u32_mod →
    (s.foldl (fun x c => 16 * x + ((hex_char_to_hex_nibble c).getD 0)) a) % u32_mod =
    (s.foldl (fun x c => 16 * x + ((hex_char_to_hex_nibble c).getD 0)) b) % u32_mod := by
  induction s with
  | nil => intro a b h; simpa using h
  | cons c s ih =>
    intro a b h
    simp only [List.foldl_cons]
    apply ih
    exact Nat.ModEq.add_right _ (Nat.ModEq.mul_left 16 h)

/-- Helper: the accumulating loop of `ir2hid_parse_hex_u32` computes the
unbounded left-shift-and-accumulate value reduced modulo `2 ^ 32`. -/
theorem ir2hid_parse_loop_spec (s : List Char) : ∀ a v : Nat, a < u32_mod →
    ir2hid_parse_hex_u32_loop s a = some v →
    v = (s.foldl (fun x c => 16 * x + ((hex_char_to_hex_nibble c).getD 0)) a) % u32_mod := by
  induction s with
  | nil =>
    intro a v ha h
    simp only [ir2hid_parse_hex_u32_loop] at h
    injection h with h1
    subst h1
    exact (Nat.mod_eq_of_lt ha).symm
  | cons c s ih =>
    intro a v ha h
    simp only [ir2hid_parse_hex_u32_loop] at h
    cases hn : hex_char_to_hex_nibble c with
    | none => rw [hn] at h; exact Option.noConfusion h
    | some d =>
      rw [hn] at h
      have hd := ir2hid_nibble_lt c d hn
      have ha2 : ((a <<< 4) ||| d) % u32_mod < u32_mod :=
        Nat.mod_lt _ (by norm_num [u32_mod])
      have hv := ih _ v ha2 h
      rw [List.foldl_cons, hv]
      apply ir2hid_hex_foldl_mod
      rw [hn]
      simp only [Option.getD_some]
      rw [ir2hid_lor_step a d hd]
      exact Nat.mod_mod_of_dvd _ dvd_rfl

/-- Helper: any accepted table line carries a HID code of at most 255
(the `hid_val > 0xFF` guard). -/
theorem ir2hid_parse_line_hid_le (line : List Char) (e : IR2HIDLutEntry)
    (h : ir2hid_parse_lut_line line = some e) : e.hid_code ≤ 255 := by
  unfold ir2hid_parse_lut_line at h
  repeat' split at h
  all_goals first
    | exact Option.noConfusion h
    | (injection h with h1; subst h1; simp; omega)

/-- Helper: a line whose HID column parses to a value above 255 is
rejected whatever its other columns hold. -/
theorem ir2hid_parse_line_hid_overflow (line p a c hh : List Char)
    (rest : List (List Char)) (w : Nat)
    (hsplit : ir2hid_split_cols line = p :: a :: c :: hh :: rest)
    (hw : ir2hid_parse_hex_u32 ( ir2hid_strip_hex_prefix hh) = some w)
    (hgt : 255 < w) : ir2hid_parse_lut_line line = none := by
  unfold ir2hid_parse_lut_line
  rw [hsplit]
  by_cases hv : infrared_is_protocol_valid (infrared_get_protocol_by_name p) = true
  all_goals
    cases hpa : ir2hid_parse_hex_u32 ( ir2hid_strip_hex_prefix a) <;>
    cases hpc : ir2hid_parse_hex_u32 ( ir2hid_strip_hex_prefix c) <;>
    simp_all

/-- Claim C6: the hex columns are parsed by left-shift-and-accumulate
with wraparound modulo `2 ^ 32` (a successful parse returns the
unbounded hex value reduced modulo `2 ^ 32`); a line whose HID column
parses to a value above 255 is rejected, and every accepted line's HID
code is at most 255. -/
theorem ir2hid_hex_semantics_and_hid_bound :
    (∀ (s : List Char) (v : Nat), ir2hid_parse_hex_u32 s = some v →
       v = ir2hid_hex_value_unbounded s % u32_mod) ∧
    (∀ (line p a c hh : List Char) (rest : List (List Char)) (w : Nat),
       ir2hid_split_cols line = p :: a :: c :: hh :: rest →
       ir2hid_parse_hex_u32 ( ir2hid_strip_hex_prefix hh) = some w → 255 < w →
       ir2hid_parse_lut_line line = none) ∧
    (∀ (line : List Char) (e : IR2HIDLutEntry),
       ir2hid_parse_lut_line line = some e → e.hid_code ≤ 255) := by
  refine ⟨?_, ir2hid_parse_line_hid_overflow, ir2hid_parse_line_hid_le⟩
  intro s v h
  cases s with
  | nil => exact Option.noConfusion h
  | cons c cs =>
    exact ir2hid_parse_loop_spec (c :: cs) 0 v (by norm_num [u32_mod]) h

/-- Witness for `ir2hid_hex_semantics_and_hid_bound`: the value parsed
from `1A2B` is its unbounded hex value modulo `2 ^ 32`, and the line
`NEC,1,2,100` (HID column `0x100` = 256) is rejected. -/
theorem ir2hid_hex_semantics_and_hid_bound_witness :
    (6699 : Nat) = ir2hid_hex_value_unbounded (("1A2B").data) % u32_mod ∧
    ir2hid_parse_lut_line (("NEC,1,2,100").data) = none :=
  ⟨ir2hid_hex_semantics_and_hid_bound.1 (("1A2B").data) 6699 (by decide),
   ir2hid_hex_semantics_and_hid_bound.2.1 (("NEC,1,2,100").data) (("NEC").data)
     (("1").data) (("2").data) (("100").data) [] 256 (by decide) (by decide) (by decide)⟩

/-- Helper: a data line hit by one of the row-level rejection conditions
of the parser (fewer than 4 columns, unresolvable protocol name, or an
empty / non-hex hex column) yields no entry. -/
theorem ir2hid_rejected_parses_none (line : List Char)
    (h : ir2hid_line_rejected line = true) : ir2hid_parse_lut_line line = none := by
  unfold ir2hid_line_rejected at h
  unfold ir2hid_parse_lut_line
  rcases hs : ir2hid_split_cols line with _ | ⟨p, _ | ⟨a, _ | ⟨c, _ | ⟨hh, rest⟩⟩⟩⟩ <;>
    rw [hs] at h <;> try rfl
  by_cases hv : infrared_is_protocol_valid (infrared_get_protocol_by_name p) = true
  all_goals
    cases hpa : ir2hid_parse_hex_u32 ( ir2hid_strip_hex_prefix a) <;>
    cases hpc : ir2hid_parse_hex_u32 ( ir2hid_strip_hex_prefix c) <;>
    cases hph : ir2hid_parse_hex_u32 ( ir2hid_strip_hex_prefix hh) <;>
    simp_all

/-- Claim C5: a data line that is rejected (fewer than 4 columns,
unresolvable protocol, or empty / non-hex hex column) produces no entry
and the rest of the buffer is unaffected: the loaded table is exactly
the in-order parse of the remaining data lines. -/
theorem ir2hid_bad_line_skipped (buf : List Char) (pre post : List (List Char))
    (bad : List Char) (usb : Bool) (hlen0 : buf.length ≠ 0) (hlen : buf.length ≤ 8192)
    (hsplit : ir2hid_data_lines buf = pre ++ bad :: post)
    (hbad : ir2hid_line_rejected bad = true) :
    (ir2hid_load_lut (ir2hid_init_app usb) (some buf)).lut =
      pre.filterMap ir2hid_parse_lut_line ++ post.filterMap ir2hid_parse_lut_line := by
  have hsz : ¬(buf.length = 0 ∨ buf.length > 8192) := by omega
  have hnone := ir2hid_rejected_parses_none bad hbad
  simp only [ir2hid_load_lut]
  rw [if_neg hsz]
  simp only [hsplit]
  have hne : (pre ++ bad :: post).isEmpty = false := by cases pre <;> simp
  simp [hne, List.filterMap_append, List.filterMap_cons, hnone]

/-- Witness for `ir2hid_bad_line_skipped`: a buffer whose third data
line `BAD` has a single column; the two well-formed lines around it are
loaded in order. -/
theorem ir2hid_bad_line_skipped_witness :
    (ir2hid_load_lut (ir2hid_init_app true) (some ir2hid_c5_buf)).lut =
      List.filterMap ir2hid_parse_lut_line [ir2hid_c5_good1] ++
      List.filterMap ir2hid_parse_lut_line [ir2hid_c5_good2] :=
  ir2hid_bad_line_skipped ir2hid_c5_buf [ir2hid_c5_good1] [ir2hid_c5_good2]
    (("BAD").data) true (by decide) (by decide) (by decide) (by decide)
